import Mathlib

/-!
Verification development for the MemeMC-Network/webstreaming repository.

The signaling server (Socket.IO handler) keeps two in-memory `Map`s:
`rooms` (sharing code -> room record) and `peers` (connection id -> peer
record).  We embed those JavaScript `Map`s as association lists with the
exact `get`/`set`/`delete` semantics (`set` replaces in place, `delete`
removes the entry), and embed each socket event handler as a pure function
from server state (plus the handler's inputs) to the new state together
with its reply and the messages it emits.

The client (`app.js`) side contributes: the SDP transformation
`optimizeSDPForLatency` (two global regex replacements, embedded as
character-list scanners with the same leftmost, non-overlapping match
semantics), the remote-control batching transport
(`startEventBatching` / `stopEventBatching` / `queueControlEvent` /
`sendControlEventImmediate` / `toggleRemoteControl`), and the input
formatter `formatSharingCode`.
-/

namespace WebStreaming

/-! Section: JavaScript `Map` embedding (association list, keys unique) -/

/-- JavaScript `Map.get`: first entry with the key, if any. -/
def mapGet {α : Type} (m : List (String × α)) (k : String) : Option α :=
  match m with
  | [] => none
  | (k', v) :: t => if k' = k then some v else mapGet t k

/-- JavaScript `Map.set`: replace the entry in place if the key exists, else append. -/
def mapSet {α : Type} (m : List (String × α)) (k : String) (v : α) :
    List (String × α) :=
  match m with
  | [] => [(k, v)]
  | (k', v') :: t => if k' = k then (k, v) :: t else (k', v') :: mapSet t k v

/-- JavaScript `Map.delete`: remove the entry with the key. -/
def mapDelete {α : Type} (m : List (String × α)) (k : String) :
    List (String × α) :=
  match m with
  | [] => []
  | (k', v') :: t => if k' = k then t else (k', v') :: mapDelete t k

/-- The keys of the association list, in order. -/
def mapKeys {α : Type} (m : List (String × α)) : List String :=
  m.map Prod.fst

/-- A `Map` never holds two entries with the same key; states reachable
through the handlers keep this invariant. -/
def keysNodup {α : Type} (m : List (String × α)) : Prop :=
  (mapKeys m).Nodup

instance {α : Type} (m : List (String × α)) : Decidable (keysNodup m) := by
  unfold keysNodup; infer_instance

theorem mapGet_mapSet_self {α : Type} (m : List (String × α)) (k : String)
    (v : α) : mapGet (mapSet m k v) k = some v := by
  induction m with
  | nil => simp [mapSet, mapGet]
  | cons e t ih =>
      obtain ⟨k', v'⟩ := e
      by_cases h : k' = k <;> simp [mapSet, mapGet, h, ih]

theorem mapGet_mapSet_ne {α : Type} (m : List (String × α)) (k k' : String)
    (v : α) (h : k ≠ k') : mapGet (mapSet m k v) k' = mapGet m k' := by
  induction m with
  | nil => simp [mapSet, mapGet, h, Ne.symm h]
  | cons e t ih =>
      obtain ⟨k₀, v₀⟩ := e
      by_cases h0 : k₀ = k
      · subst h0; simp [mapSet, mapGet, h, Ne.symm h]
      · by_cases h1 : k₀ = k' <;>
          simp [mapSet, mapGet, h0, h1, ih, Ne.symm h]

theorem mapGet_none_of_not_mem {α : Type} (m : List (String × α))
    (k : String) (h : k ∉ mapKeys m) : mapGet m k = none := by
  induction m with
  | nil => simp [mapGet]
  | cons e t ih =>
      obtain ⟨k', v'⟩ := e
      simp only [mapKeys, List.map_cons, List.mem_cons, not_or] at h
      have h1 : k' ≠ k := fun hh => h.1 hh.symm
      simp [mapGet, h1, ih (by simpa [mapKeys] using h.2)]

theorem mapGet_mapDelete_self {α : Type} (m : List (String × α)) (k : String)
    (h : keysNodup m) : mapGet (mapDelete m k) k = none := by
  induction m with
  | nil => simp [mapDelete, mapGet]
  | cons e t ih =>
      obtain ⟨k', v'⟩ := e
      simp only [keysNodup, mapKeys, List.map_cons, List.nodup_cons] at h
      by_cases h0 : k' = k
      · subst h0
        simp only [mapDelete, if_pos rfl]
        exact mapGet_none_of_not_mem t k' (by simpa [mapKeys] using h.1)
      · simp [mapDelete, mapGet, h0, ih h.2]

theorem mapGet_mapDelete_ne {α : Type} (m : List (String × α))
    (k k' : String) (h : k ≠ k') :
    mapGet (mapDelete m k) k' = mapGet m k' := by
  induction m with
  | nil => simp [mapDelete]
  | cons e t ih =>
      obtain ⟨k₀, v₀⟩ := e
      by_cases h0 : k₀ = k
      · subst h0; simp [mapDelete, mapGet, h]
      · by_cases h1 : k₀ = k' <;>
          simp [mapDelete, mapGet, h0, h1, ih, Ne.symm h]

theorem mem_mapKeys_mapSet {α : Type} (m : List (String × α))
    (k a : String) (v : α) (h : a ∈ mapKeys (mapSet m k v)) :
    a = k ∨ a ∈ mapKeys m := by
  induction m with
  | nil => simpa [mapSet, mapKeys] using h
  | cons e t ih =>
      obtain ⟨k', v'⟩ := e
      by_cases h0 : k' = k
      · subst h0
        simpa [mapSet, mapKeys] using h
      · simp only [mapSet, h0, if_false, mapKeys, List.map_cons,
          List.mem_cons] at h
        rcases h with h | h
        · right; simp [mapKeys, h]
        · rcases ih h with h | h
          · exact Or.inl h
          · right; simp [mapKeys] at h ⊢; tauto

theorem keysNodup_mapSet {α : Type} (m : List (String × α)) (k : String)
    (v : α) (h : keysNodup m) : keysNodup (mapSet m k v) := by
  induction m with
  | nil => simp [mapSet, keysNodup, mapKeys]
  | cons e t ih =>
      obtain ⟨k', v'⟩ := e
      simp only [keysNodup, mapKeys, List.map_cons, List.nodup_cons] at h
      by_cases h0 : k' = k
      · subst h0
        simpa [mapSet, keysNodup, mapKeys] using h
      · have ht := ih h.2
        simp only [mapSet, h0, if_false, keysNodup, mapKeys, List.map_cons,
          List.nodup_cons]
        refine ⟨fun hc => ?_, ht⟩
        rcases mem_mapKeys_mapSet t k k' v hc with hc | hc
        · exact h0 hc
        · exact h.1 (by simpa [mapKeys] using hc)

/-! Section: server state and handlers (src/unnamed/part_000) -/

/-- A room record: `{ host, viewer: null, createdAt }`. -/
structure Room where
  host : String
  viewer : Option String
  createdAt : Int
deriving DecidableEq

/-- A peer record: `{ code, role }`. -/
structure PeerRec where
  code : String
  role : String
deriving DecidableEq

/-- The two global `Map`s of the signaling handler. -/
structure ServerState where
  rooms : List (String × Room)
  peers : List (String × PeerRec)
deriving DecidableEq

/-- Function `generateSharingCode`: three random 3-digit parts joined by dashes.
`Math.floor(Math.random() * 900 + 100)` is modelled by passing the three
drawn parts (each in `[100, 999]`) as arguments. -/
def generateSharingCode (p1 p2 p3 : Nat) : String :=
  toString p1 ++ "-" ++ toString p2 ++ "-" ++ toString p3

/-- The `generate-code` handler: build the code, insert the room
unconditionally (`rooms.set`), bind the host in `peers`, reply with the
code. -/
def generateCodeHandler (st : ServerState) (sid : String)
    (p1 p2 p3 : Nat) (now : Int) : ServerState × String :=
  let code := generateSharingCode p1 p2 p3
  ({ rooms := mapSet st.rooms code ⟨sid, none, now⟩,
     peers := mapSet st.peers sid ⟨code, "host"⟩ }, code)

/-- Reply of the `join-room` callback. -/
inductive JoinReply where
  | ok (hostId : String)
  | err (message : String)
deriving DecidableEq

/-- The `join-room` handler.  Returns the new state, the callback reply and
the list of `(target, event)` emissions. -/
def joinRoomHandler (st : ServerState) (code sid : String) :
    ServerState × JoinReply × List (String × String) :=
  match mapGet st.rooms code with
  | none => (st, .err "Invalid sharing code", [])
  | some room =>
      if room.viewer.isSome then
        (st, .err "Room is full", [])
      else
        ({ rooms := mapSet st.rooms code { room with viewer := some sid },
           peers := mapSet st.peers sid ⟨code, "viewer"⟩ },
         .ok room.host, [(room.host, "viewer-joined")])

/-- The `disconnect` handler.  Returns the new state and the
`(target, event)` emissions. -/
def disconnectHandler (st : ServerState) (sid : String) :
    ServerState × List (String × String) :=
  match mapGet st.peers sid with
  | none => (st, [])
  | some peer =>
      match mapGet st.rooms peer.code with
      | none => ({ st with peers := mapDelete st.peers sid }, [])
      | some room =>
          if room.host = sid then
            ({ rooms := mapDelete st.rooms peer.code,
               peers := mapDelete st.peers sid },
             match room.viewer with
             | some v => [(v, "host-disconnected")]
             | none => [])
          else if room.viewer = some sid then
            ({ rooms := mapSet st.rooms peer.code { room with viewer := none },
               peers := mapDelete st.peers sid },
             [(room.host, "viewer-disconnected")])
          else
            ({ st with peers := mapDelete st.peers sid }, [])

/-- The constant `ONE_HOUR` in milliseconds, as in the sweep callback. -/
def ONE_HOUR : Int := 60 * 60 * 1000

/-- The periodic sweep: delete every room with `now - createdAt > ONE_HOUR`. -/
def sweepHandler (st : ServerState) (now : Int) : ServerState :=
  { st with
    rooms := st.rooms.filter fun e => !decide (now - e.2.createdAt > ONE_HOUR) }

/-! Section: remote-control transport (src/app.js) -/

/-- The constant `remoteControlConfig.maxBatchSize`. -/
def maxBatchSize : Nat := 50

/-- The constant `remoteControlConfig.batchInterval` in milliseconds. -/
def batchIntervalMs : Nat := 16

/-- A queued control event: the payload with the timestamp attached by
`queueControlEvent` at enqueue time. -/
structure QEvent where
  payload : String
  timestamp : Int
deriving DecidableEq

/-- A message sent on the data channel: a single event or a batch envelope,
each carrying its send timestamp. -/
inductive WireMsg where
  | single (payload : String) (timestamp : Int)
  | batch (events : List QEvent) (timestamp : Int)
deriving DecidableEq

/-- The guard `dataChannel && dataChannel.readyState === 'open'`: the channel is
modelled as `none` (absent) or `some readyState`. -/
def chanOpen : Option String → Bool
  | some rs => rs == "open"
  | none => false

/-- One firing of the `startEventBatching` interval callback: if the queue
is non-empty and the channel is open, splice off the first
`maxBatchSize` events and send them as one batch. -/
def flushTick (q : List QEvent) (ch : Option String) (now : Int) :
    List QEvent × Option WireMsg :=
  if 0 < q.length ∧ chanOpen ch = true then
    (q.drop maxBatchSize, some (.batch (q.take maxBatchSize) now))
  else
    (q, none)

/-- Function `sendControlEventImmediate`: send one event now if the channel is open,
otherwise do nothing. -/
def sendControlEventImmediate (ch : Option String) (payload : String)
    (now : Int) : Option WireMsg :=
  if chanOpen ch = true then some (.single payload now) else none

/-- Function `queueControlEvent`: push the event, stamped with the current time. -/
def queueControlEvent (q : List QEvent) (payload : String) (now : Int) :
    List QEvent :=
  q ++ [⟨payload, now⟩]

/-- The viewer-side control state: `remoteControlEnabled`, whether
`eventBatchInterval` is set, `eventBatchQueue`, and the data channel. -/
structure RCState where
  enabled : Bool
  timerOn : Bool
  queue : List QEvent
  channel : Option String
deriving DecidableEq

/-- Function `startEventBatching`: start the flush interval unless it already runs. -/
def startEventBatching (st : RCState) : RCState :=
  if st.timerOn then st else { st with timerOn := true }

/-- Function `stopEventBatching`: if the interval is set, clear it and drop the
queue; otherwise do nothing. -/
def stopEventBatching (st : RCState) : RCState :=
  if st.timerOn then { st with timerOn := false, queue := [] } else st

/-- Function `toggleRemoteControl`: set the flag first; if the remote-video element
is absent, return early; otherwise start or stop batching. -/
def toggleRemoteControl (st : RCState) (enabled videoPresent : Bool) :
    RCState :=
  let st1 := { st with enabled := enabled }
  if videoPresent = false then st1
  else if enabled then startEventBatching st1 else stopEventBatching st1

/-- External stimuli to the control transport. -/
inductive RCAction where
  | toggle (enabled videoPresent : Bool)
  | input (payload : String) (now : Int)
  | tick (now : Int)
  | channelState (ch : Option String)
deriving DecidableEq

/-- One step of the control transport: a toggle, a coalescable input event
(the handlers enqueue only while `remoteControlEnabled`), a timer tick
(fires only while the interval is set), or a channel state change. -/
def rcStep (st : RCState) : RCAction → RCState × Option WireMsg
  | .toggle e vp => (toggleRemoteControl st e vp, none)
  | .input p now =>
      (if st.enabled then { st with queue := queueControlEvent st.queue p now }
       else st, none)
  | .tick now =>
      if st.timerOn then
        let r := flushTick st.queue st.channel now
        ({ st with queue := r.1 }, r.2)
      else (st, none)
  | .channelState ch => ({ st with channel := ch }, none)

/-- Run a sequence of stimuli, collecting the messages sent. -/
def rcRun (st : RCState) : List RCAction → RCState × List WireMsg
  | [] => (st, [])
  | a :: as =>
      let r := rcStep st a
      let r2 := rcRun r.1 as
      (r2.1, r.2.toList ++ r2.2)

/-- Whether an action re-enables remote control. -/
def isEnableAction : RCAction → Bool
  | .toggle true _ => true
  | _ => false

/-! Section: sharing-code formatter (src/app.js) -/

/-- The dash re-insertion of `formatSharingCode` on the digit list:
`digits`, `digits.slice(0,3)-digits.slice(3)`, or
`digits.slice(0,3)-digits.slice(3,6)-digits.slice(6,9)`. -/
def formatSharingCodeData (digits : List Char) : List Char :=
  if digits.length ≤ 3 then digits
  else if digits.length ≤ 6 then digits.take 3 ++ '-' :: digits.drop 3
  else
    digits.take 3 ++ '-' :: ((digits.drop 3).take 3 ++
      '-' :: (digits.drop 6).take 3)

/-- Function `formatSharingCode`: strip non-digits (`value.replace(/\D/g, '')`),
then re-insert dashes every three digits, using at most the first nine
digits. -/
def formatSharingCode (s : String) : String :=
  ⟨formatSharingCodeData (s.data.filter Char.isDigit)⟩

/-! Section: SDP transformation (src/app.js, `optimizeSDPForLatency`)

The two global regex replacements are embedded as left-to-right scanners
over the character list: at each position try to match the pattern; on a
match emit the replacement and continue after the matched region (JS
`String.replace` with a global regex finds non-overlapping matches in the
original string, left to right).  The scanners take a fuel argument that
starts at the list length; each step consumes at least one character and
exactly one unit of fuel, so the fuel never runs out. -/

/-- The literal part of the first pattern, `a=fmtp:`. -/
def fmtpPat : List Char := ['a', '=', 'f', 'm', 't', 'p', ':']

/-- The literal part of the second pattern, `a=rtpmap:`. -/
def rtpmapPat : List Char := ['a', '=', 'r', 't', 'p', 'm', 'a', 'p', ':']

/-- The tail of the second pattern, a space followed by `H264`. -/
def h264Pat : List Char := [' ', 'H', '2', '6', '4']

/-- The bitrate hints spliced in after `a=fmtp:$1 `. -/
def bitrateHints : List Char :=
  "x-google-max-bitrate=10000;x-google-min-bitrate=2000;x-google-start-bitrate=5000;".data

/-- The parameter string of the inserted H264 format-parameter line. -/
def profileFmtp : List Char :=
  "profile-level-id=42e01f;level-asymmetry-allowed=1;packetization-mode=1".data

/-- A carriage-return/line-feed pair. -/
def crlf : List Char := ['\r', '\n']

/-- Split off the maximal run of decimal digits (`\d+` then the forced
non-digit continuation). -/
def spanDigits : List Char → List Char × List Char
  | [] => ([], [])
  | c :: cs =>
      if c.isDigit then
        let r := spanDigits cs
        (c :: r.1, r.2)
      else ([], c :: cs)

/-- Strip a literal pattern from the front, if present. -/
def stripPat : List Char → List Char → Option (List Char)
  | [], l => some l
  | _ :: _, [] => none
  | p :: ps, c :: cs => if c = p then stripPat ps cs else none

/-- Try to match `a=fmtp:(\d+) ` at the head; on success return the digit
group and the remainder after the match. -/
def tryFmtp (l : List Char) : Option (List Char × List Char) :=
  match stripPat fmtpPat l with
  | none => none
  | some r =>
      match spanDigits r with
      | ([], _) => none
      | (ds, ' ' :: rest) => some (ds, rest)
      | (_, _) => none

/-- Try to match `a=rtpmap:(\d+) H264` at the head; on success return the
digit group and the remainder after the match. -/
def tryRtpmap (l : List Char) : Option (List Char × List Char) :=
  match stripPat rtpmapPat l with
  | none => none
  | some r =>
      match spanDigits r with
      | ([], _) => none
      | (ds, r2) =>
          match stripPat h264Pat r2 with
          | some rest => some (ds, rest)
          | none => none

/-- Global replacement of `a=fmtp:(\d+) ` by `a=fmtp:$1 ` plus the bitrate
hints. -/
def repFmtpGo : Nat → List Char → List Char
  | 0, l => l
  | _ + 1, [] => []
  | fuel + 1, c :: cs =>
      match tryFmtp (c :: cs) with
      | some (ds, rest) =>
          fmtpPat ++ ds ++ ' ' :: (bitrateHints ++ repFmtpGo fuel rest)
      | none => c :: repFmtpGo fuel cs

/-- The first replacement, with fuel set to the input length. -/
def repFmtp (l : List Char) : List Char := repFmtpGo l.length l

/-- Global replacement of `a=rtpmap:(\d+) H264` by itself followed by a
CRLF and the pinned `a=fmtp:$1 profile-…` line. -/
def repRtpmapGo : Nat → List Char → List Char
  | 0, l => l
  | _ + 1, [] => []
  | fuel + 1, c :: cs =>
      match tryRtpmap (c :: cs) with
      | some (ds, rest) =>
          rtpmapPat ++ ds ++ h264Pat ++ crlf ++ fmtpPat ++ ds ++
            ' ' :: (profileFmtp ++ repRtpmapGo fuel rest)
      | none => c :: repRtpmapGo fuel cs

/-- The second replacement, with fuel set to the input length. -/
def repRtpmap (l : List Char) : List Char := repRtpmapGo l.length l

/-- Function `optimizeSDPForLatency`: the bitrate replacement followed by the H264
replacement (the pure replacements cannot throw, so the surrounding
`try`/`catch` fallback path is dead). -/
def optimizeSDPForLatency (sdp : String) : String :=
  ⟨repRtpmap (repFmtp sdp.data)⟩

/-- No position of the list starts a `a=fmtp:(\d+) ` match. -/
def noFmtpAll : List Char → Bool
  | [] => true
  | c :: cs => (tryFmtp (c :: cs)).isNone && noFmtpAll cs

/-- No position of the list starts a `a=rtpmap:(\d+) H264` match. -/
def noRtpmapAll : List Char → Bool
  | [] => true
  | c :: cs => (tryRtpmap (c :: cs)).isNone && noRtpmapAll cs

/-- None of the first `n` positions starts a `a=rtpmap:(\d+) H264` match. -/
def noRtpmapWithin : Nat → List Char → Bool
  | 0, _ => true
  | _ + 1, [] => true
  | n + 1, c :: cs => (tryRtpmap (c :: cs)).isNone && noRtpmapWithin n cs

/-- Split a character list on CRLF boundaries (the lines of an SDP blob). -/
def splitCRLF : List Char → List (List Char)
  | [] => [[]]
  | '\r' :: '\n' :: rest => [] :: splitCRLF rest
  | c :: cs =>
      match splitCRLF cs with
      | [] => [[c]]
      | l :: ls => (c :: l) :: ls

/-! Section: claims about the signaling server -/

/-- Claim C3: for every join request, an absent code fails with
"Invalid sharing code", an occupied viewer slot fails with "Room is full",
and otherwise the viewer slot is set to the joiner and the host identity is
returned; on either failure neither the rooms map nor the peer index is
mutated (the returned state is the input state). -/
theorem joinRoom_cases (st : ServerState) (c v : String) :
    (mapGet st.rooms c = none →
      joinRoomHandler st c v = (st, .err "Invalid sharing code", []))
    ∧ (∀ room : Room, mapGet st.rooms c = some room → room.viewer.isSome →
      joinRoomHandler st c v = (st, .err "Room is full", []))
    ∧ (∀ room : Room, mapGet st.rooms c = some room → room.viewer = none →
      joinRoomHandler st c v =
        ({ rooms := mapSet st.rooms c { room with viewer := some v },
           peers := mapSet st.peers v ⟨c, "viewer"⟩ },
         .ok room.host, [(room.host, "viewer-joined")])) := by
  refine ⟨fun h => ?_, fun room h hv => ?_, fun room h hv => ?_⟩
  · simp [joinRoomHandler, h]
  · simp [joinRoomHandler, h, hv]
  · simp [joinRoomHandler, h, hv]

/-- Concrete instances of the three branches of `joinRoom_cases`. -/
theorem joinRoom_cases_witness :
    joinRoomHandler ⟨[], []⟩ "123-456-789" "v" =
      (⟨[], []⟩, .err "Invalid sharing code", [])
    ∧ joinRoomHandler ⟨[("111-222-333", ⟨"h", some "u", 0⟩)], []⟩
        "111-222-333" "v" =
      (⟨[("111-222-333", ⟨"h", some "u", 0⟩)], []⟩, .err "Room is full", [])
    ∧ joinRoomHandler ⟨[("111-222-333", ⟨"h", none, 0⟩)], []⟩
        "111-222-333" "v" =
      (⟨[("111-222-333", ⟨"h", some "v", 0⟩)],
        [("v", ⟨"111-222-333", "viewer"⟩)]⟩,
       .ok "h", [("h", "viewer-joined")]) :=
  ⟨(joinRoom_cases ⟨[], []⟩ "123-456-789" "v").1 (by decide),
   (joinRoom_cases _ "111-222-333" "v").2.1 ⟨"h", some "u", 0⟩
     (by decide) (by decide),
   (joinRoom_cases _ "111-222-333" "v").2.2 ⟨"h", none, 0⟩
     (by decide) (by decide)⟩

/-- Claim C1 counterexample: with a live room under code "100-100-100",
a generate-code request whose three random parts are 100, 100, 100 returns
that same live code and overwrites the existing room (no collision retry
exists in the handler). -/
theorem generateCode_collision_overwrites :
    (generateCodeHandler
        ⟨[("100-100-100", ⟨"hostA", some "v", 0⟩)],
         [("hostA", ⟨"100-100-100", "host"⟩)]⟩
        "hostB" 100 100 100 5).2 = "100-100-100"
    ∧ mapGet [("100-100-100", (⟨"hostA", some "v", 0⟩ : Room))]
        "100-100-100" = some ⟨"hostA", some "v", 0⟩
    ∧ mapGet (generateCodeHandler
        ⟨[("100-100-100", ⟨"hostA", some "v", 0⟩)],
         [("hostA", ⟨"100-100-100", "host"⟩)]⟩
        "hostB" 100 100 100 5).1.rooms "100-100-100" =
      some ⟨"hostB", none, 5⟩ := by
  refine ⟨?_, ?_, ?_⟩ <;> decide

/-- Claim C1 (amended): the generate-code handler inserts the freshly
generated code unconditionally — a collision overwrites the existing room
instead of being retried — and because the room store is keyed by code,
no two simultaneously live rooms ever share a code (key uniqueness is
preserved). -/
theorem generateCode_inserts_keys_unique (st : ServerState) (sid : String)
    (p1 p2 p3 : Nat) (now : Int) :
    (generateCodeHandler st sid p1 p2 p3 now).2 = generateSharingCode p1 p2 p3
    ∧ mapGet (generateCodeHandler st sid p1 p2 p3 now).1.rooms
        (generateSharingCode p1 p2 p3) = some ⟨sid, none, now⟩
    ∧ (keysNodup st.rooms →
        keysNodup (generateCodeHandler st sid p1 p2 p3 now).1.rooms) := by
  refine ⟨rfl, ?_, fun h => ?_⟩
  · simp [generateCodeHandler, mapGet_mapSet_self]
  · simpa [generateCodeHandler] using keysNodup_mapSet st.rooms _ _ h

/-- Concrete instance of `generateCode_inserts_keys_unique`. -/
theorem generateCode_inserts_keys_unique_witness :
    (generateCodeHandler ⟨[("111-222-333", ⟨"hostA", none, 0⟩)], []⟩
        "hostB" 100 200 300 5).2 = generateSharingCode 100 200 300
    ∧ mapGet (generateCodeHandler ⟨[("111-222-333", ⟨"hostA", none, 0⟩)], []⟩
        "hostB" 100 200 300 5).1.rooms (generateSharingCode 100 200 300) =
      some ⟨"hostB", none, 5⟩
    ∧ keysNodup (generateCodeHandler
        ⟨[("111-222-333", ⟨"hostA", none, 0⟩)], []⟩
        "hostB" 100 200 300 5).1.rooms :=
  ⟨(generateCode_inserts_keys_unique _ "hostB" 100 200 300 5).1,
   (generateCode_inserts_keys_unique _ "hostB" 100 200 300 5).2.1,
   (generateCode_inserts_keys_unique _ "hostB" 100 200 300 5).2.2
     (by decide)⟩

/-- Claim C2 counterexample: after the host of room "111-222-333"
disconnects, the viewer "v" that was bound to that room is still present in
the peer index (the disconnect handler only deletes the departing
connection's own record). -/
theorem hostDisconnect_leaves_viewer_bound :
    mapGet (disconnectHandler
       ⟨[("111-222-333", ⟨"h", some "v", 0⟩)],
        [("h", ⟨"111-222-333", "host"⟩), ("v", ⟨"111-222-333", "viewer"⟩)]⟩
       "h").1.peers "v" = some ⟨"111-222-333", "viewer"⟩ := by
  decide

/-- Claim C2 (amended): after a host's connection disconnects, the room is
deleted, so every subsequent join with that code fails with
"Invalid sharing code", and the host's own peer-index entry is removed; a
viewer bound to the room is NOT unbound by the host's disconnect — its
peer-index entry is left untouched (it is only removed when the viewer
itself disconnects). -/
theorem hostDisconnect_room_unreachable (st : ServerState)
    (hid c : String) (room : Room)
    (hnd : keysNodup st.rooms) (hnp : keysNodup st.peers)
    (hp : mapGet st.peers hid = some ⟨c, "host"⟩)
    (hr : mapGet st.rooms c = some room)
    (hh : room.host = hid) :
    mapGet (disconnectHandler st hid).1.rooms c = none
    ∧ (∀ w, joinRoomHandler (disconnectHandler st hid).1 c w =
        ((disconnectHandler st hid).1, .err "Invalid sharing code", []))
    ∧ mapGet (disconnectHandler st hid).1.peers hid = none
    ∧ (∀ v, v ≠ hid →
        mapGet (disconnectHandler st hid).1.peers v = mapGet st.peers v) := by
  have hst : (disconnectHandler st hid).1 =
      { rooms := mapDelete st.rooms c, peers := mapDelete st.peers hid } := by
    simp [disconnectHandler, hp, hr, hh]
  have hroom : mapGet (disconnectHandler st hid).1.rooms c = none := by
    rw [hst]; exact mapGet_mapDelete_self st.rooms c hnd
  refine ⟨hroom, fun w => ?_, ?_, fun v hv => ?_⟩
  · simp [joinRoomHandler, hroom]
  · rw [hst]; exact mapGet_mapDelete_self st.peers hid hnp
  · rw [hst]; exact mapGet_mapDelete_ne st.peers hid v (fun hx => hv hx.symm)

/-- Concrete instance of `hostDisconnect_room_unreachable`. -/
theorem hostDisconnect_room_unreachable_witness :
    mapGet (disconnectHandler
       ⟨[("111-222-333", ⟨"h", some "v", 0⟩)],
        [("h", ⟨"111-222-333", "host"⟩), ("v", ⟨"111-222-333", "viewer"⟩)]⟩
       "h").1.rooms "111-222-333" = none
    ∧ joinRoomHandler (disconnectHandler
       ⟨[("111-222-333", ⟨"h", some "v", 0⟩)],
        [("h", ⟨"111-222-333", "host"⟩), ("v", ⟨"111-222-333", "viewer"⟩)]⟩
       "h").1 "111-222-333" "w" =
      ((disconnectHandler
       ⟨[("111-222-333", ⟨"h", some "v", 0⟩)],
        [("h", ⟨"111-222-333", "host"⟩), ("v", ⟨"111-222-333", "viewer"⟩)]⟩
       "h").1, .err "Invalid sharing code", []) :=
  ⟨(hostDisconnect_room_unreachable _ "h" "111-222-333" ⟨"h", some "v", 0⟩
      (by decide) (by decide) (by decide) (by decide) (by decide)).1,
   (hostDisconnect_room_unreachable _ "h" "111-222-333" ⟨"h", some "v", 0⟩
      (by decide) (by decide) (by decide) (by decide) (by decide)).2.1 "w"⟩

/-- Claim C8: after a viewer's connection disconnects, the room's viewer
slot is cleared — the same code is joinable again by a new viewer, who
receives the host identity — and the host is sent exactly one
"viewer-disconnected" notification by the disconnect handler. -/
theorem viewerDisconnect_room_reusable (st : ServerState)
    (v c w : String) (room : Room)
    (hp : mapGet st.peers v = some ⟨c, "viewer"⟩)
    (hr : mapGet st.rooms c = some room)
    (hhost : room.host ≠ v)
    (hview : room.viewer = some v) :
    (disconnectHandler st v).2 = [(room.host, "viewer-disconnected")]
    ∧ mapGet (disconnectHandler st v).1.rooms c =
        some { room with viewer := none }
    ∧ (joinRoomHandler (disconnectHandler st v).1 c w).2.1 = .ok room.host
    ∧ mapGet (joinRoomHandler (disconnectHandler st v).1 c w).1.rooms c =
        some { room with viewer := some w } := by
  have hst : disconnectHandler st v =
      ({ rooms := mapSet st.rooms c { room with viewer := none },
         peers := mapDelete st.peers v },
       [(room.host, "viewer-disconnected")]) := by
    simp [disconnectHandler, hp, hr, hhost, hview]
  have hroom : mapGet (disconnectHandler st v).1.rooms c =
      some { room with viewer := none } := by
    rw [hst]; exact mapGet_mapSet_self st.rooms c _
  refine ⟨by rw [hst], hroom, ?_, ?_⟩
  · simp [joinRoomHandler, hroom]
  · simp [joinRoomHandler, hroom, mapGet_mapSet_self]

/-- Concrete instance of `viewerDisconnect_room_reusable`. -/
theorem viewerDisconnect_room_reusable_witness :
    (disconnectHandler
       ⟨[("111-222-333", ⟨"h", some "v", 0⟩)],
        [("h", ⟨"111-222-333", "host"⟩), ("v", ⟨"111-222-333", "viewer"⟩)]⟩
       "v").2 = [("h", "viewer-disconnected")]
    ∧ (joinRoomHandler (disconnectHandler
       ⟨[("111-222-333", ⟨"h", some "v", 0⟩)],
        [("h", ⟨"111-222-333", "host"⟩), ("v", ⟨"111-222-333", "viewer"⟩)]⟩
       "v").1 "111-222-333" "w").2.1 = .ok "h" :=
  ⟨(viewerDisconnect_room_reusable _ "v" "111-222-333" "w"
      ⟨"h", some "v", 0⟩ (by decide) (by decide) (by decide) (by decide)).1,
   (viewerDisconnect_room_reusable _ "v" "111-222-333" "w"
      ⟨"h", some "v", 0⟩ (by decide) (by decide) (by decide) (by decide)).2.2.1⟩

/-- Claim C7: a sweep at time `now` removes a room exactly when
`now - createdAt` strictly exceeds one hour; in particular a room survives
a sweep run one second before its expiry boundary and is removed by a
sweep run two seconds after it. -/
theorem sweep_removes_iff_expired (st : ServerState) (now : Int) :
    (∀ (c : String) (r : Room),
      (c, r) ∈ (sweepHandler st now).rooms ↔
        ((c, r) ∈ st.rooms ∧ ¬(now - r.createdAt > ONE_HOUR)))
    ∧ (∀ (t : Int) (hid : String),
        ("123-456-789", (⟨hid, none, t⟩ : Room)) ∈
          (sweepHandler ⟨[("123-456-789", ⟨hid, none, t⟩)], []⟩
            (t + ONE_HOUR - 1000)).rooms
        ∧ ("123-456-789", (⟨hid, none, t⟩ : Room)) ∉
          (sweepHandler ⟨[("123-456-789", ⟨hid, none, t⟩)], []⟩
            (t + ONE_HOUR + 2000)).rooms) := by
  constructor
  · intro c r
    simp [sweepHandler, List.mem_filter]
  · intro t hid
    constructor
    · simp [sweepHandler, List.mem_filter, ONE_HOUR]
      omega
    · simp [sweepHandler, List.mem_filter, ONE_HOUR]
      omega

/-- Concrete instance of `sweep_removes_iff_expired`: a room created at
time 0 is still present in a sweep at `ONE_HOUR` and gone in a sweep at
`ONE_HOUR + 1`. -/
theorem sweep_removes_iff_expired_witness :
    ("123-456-789", (⟨"h", none, 0⟩ : Room)) ∈
      (sweepHandler ⟨[("123-456-789", ⟨"h", none, 0⟩)], []⟩ ONE_HOUR).rooms
    ∧ ("123-456-789", (⟨"h", none, 0⟩ : Room)) ∉
      (sweepHandler ⟨[("123-456-789", ⟨"h", none, 0⟩)], []⟩
        (ONE_HOUR + 1)).rooms :=
  ⟨((sweep_removes_iff_expired ⟨[("123-456-789", ⟨"h", none, 0⟩)], []⟩
      ONE_HOUR).1 "123-456-789" ⟨"h", none, 0⟩).mpr
      ⟨by decide, by decide⟩,
   fun hmem =>
     absurd (((sweep_removes_iff_expired
         ⟨[("123-456-789", ⟨"h", none, 0⟩)], []⟩ (ONE_HOUR + 1)).1
         "123-456-789" ⟨"h", none, 0⟩).mp hmem).2 (by decide)⟩

/-! Section: claims about the control transport -/

/-- Claim C5: on a flush tick with a non-empty queue and an open channel,
exactly the oldest `min (queue length) maxBatchSize` events are removed
and sent as one batch carrying the send timestamp, in enqueue order, and
the remainder stays queued. -/
theorem flushTick_drains_oldest (q : List QEvent) (ch : Option String)
    (now : Int) (hq : q ≠ []) (hch : chanOpen ch = true) :
    flushTick q ch now =
      (q.drop maxBatchSize, some (.batch (q.take maxBatchSize) now))
    ∧ (q.take maxBatchSize).length = min q.length maxBatchSize
    ∧ q.take maxBatchSize ++ q.drop maxBatchSize = q := by
  have h0 : 0 < q.length := List.length_pos.mpr hq
  refine ⟨by simp [flushTick, h0, hch], ?_, List.take_append_drop _ _⟩
  simp [List.length_take, Nat.min_comm]

/-- Concrete instance of `flushTick_drains_oldest`. -/
theorem flushTick_drains_oldest_witness :
    flushTick [⟨"m1", 1⟩, ⟨"m2", 2⟩] (some "open") 7 =
      ([], some (.batch [⟨"m1", 1⟩, ⟨"m2", 2⟩] 7))
    ∧ ([⟨"m1", 1⟩, ⟨"m2", 2⟩] : List QEvent).take maxBatchSize ++
        ([⟨"m1", 1⟩, ⟨"m2", 2⟩] : List QEvent).drop maxBatchSize =
        [⟨"m1", 1⟩, ⟨"m2", 2⟩] :=
  ⟨(flushTick_drains_oldest [⟨"m1", 1⟩, ⟨"m2", 2⟩] (some "open") 7
      (by decide) (by decide)).1,
   (flushTick_drains_oldest [⟨"m1", 1⟩, ⟨"m2", 2⟩] (some "open") 7
      (by decide) (by decide)).2.2⟩

/-- Claim C9: while the data channel is absent or not open, an immediate
send is a no-op returning nothing, and a flush tick sends nothing and
leaves the queue untouched (no exception path exists: both functions are
total). -/
theorem closedChannel_send_noop (ch : Option String) (p : String)
    (now : Int) (h : chanOpen ch = false) :
    sendControlEventImmediate ch p now = none
    ∧ ∀ q : List QEvent, flushTick q ch now = (q, none) := by
  refine ⟨by simp [sendControlEventImmediate, h], fun q => ?_⟩
  simp [flushTick, h]

/-- Concrete instances of `closedChannel_send_noop`: an absent channel and
a channel still in the "connecting" state. -/
theorem closedChannel_send_noop_witness :
    sendControlEventImmediate none "keydown" 3 = none
    ∧ flushTick [⟨"m1", 1⟩] none 3 = ([⟨"m1", 1⟩], none)
    ∧ sendControlEventImmediate (some "connecting") "keydown" 3 = none :=
  ⟨(closedChannel_send_noop none "keydown" 3 (by decide)).1,
   (closedChannel_send_noop none "keydown" 3 (by decide)).2 [⟨"m1", 1⟩],
   (closedChannel_send_noop (some "connecting") "keydown" 3 (by decide)).1⟩

/-- A state with remote control off and the flush interval cleared. -/
def rcOff (st : RCState) : Prop :=
  st.enabled = false ∧ st.timerOn = false

theorem rcStep_keeps_off (st : RCState) (a : RCAction) (h : rcOff st)
    (ha : isEnableAction a = false) :
    rcOff (rcStep st a).1 ∧ (rcStep st a).2 = none := by
  obtain ⟨he, ht⟩ := h
  cases a with
  | toggle e vp =>
      cases e with
      | true => simp [isEnableAction] at ha
      | false =>
          cases vp with
          | true =>
              simp [rcStep, toggleRemoteControl, stopEventBatching, ht, rcOff]
          | false => simp [rcStep, toggleRemoteControl, ht, rcOff]
  | input p now => simp [rcStep, he, rcOff, ht]
  | tick now => simp [rcStep, ht, rcOff, he]
  | channelState ch => simp [rcStep, rcOff, he, ht]

theorem rcRun_keeps_silent (st : RCState) (acts : List RCAction)
    (h : rcOff st) (ha : ∀ a ∈ acts, isEnableAction a = false) :
    (rcRun st acts).2 = [] := by
  induction acts generalizing st with
  | nil => rfl
  | cons a as ih =>
      have hstep := rcStep_keeps_off st a h (ha a (by simp))
      simp only [rcRun, hstep.2, Option.toList_none, List.nil_append]
      exact ih (rcStep st a).1 hstep.1 fun b hb => ha b (by simp [hb])

/-- Claim C6 counterexample: enable control (video present), queue one
event, then disable control while the remote-video element is absent —
the disable path returns before `stopEventBatching`, so the event is not
dropped and the very next flush tick still sends a batch. -/
theorem disable_without_video_still_sends :
    (rcRun ⟨false, false, [], some "open"⟩
        [.toggle true true, .input "m" 1, .toggle false false]).1.enabled =
      false
    ∧ (rcRun ⟨false, false, [], some "open"⟩
        [.toggle true true, .input "m" 1, .toggle false false]).1.queue =
      [⟨"m", 1⟩]
    ∧ (rcStep (rcRun ⟨false, false, [], some "open"⟩
        [.toggle true true, .input "m" 1, .toggle false false]).1
        (.tick 2)).2 = some (.batch [⟨"m", 1⟩] 2) := by
  refine ⟨?_, ?_, ?_⟩ <;> decide

/-- Claim C6 (amended): when remote control is disabled while the
remote-video element is present and the flush interval is running (the
normal mid-flight situation), every queued-but-unsent event is dropped,
the flush interval stops, and no batch message is sent by any later
stimulus until control is re-enabled; if the video element is absent at
disable time the handler returns before `stopEventBatching`, so the queue
and timer survive and a later tick can still send a batch. -/
theorem disable_drops_queue_and_silences (st : RCState)
    (ht : st.timerOn = true) (acts : List RCAction)
    (ha : ∀ a ∈ acts, isEnableAction a = false) :
    (rcStep st (.toggle false true)).1.queue = []
    ∧ (rcStep st (.toggle false true)).1.timerOn = false
    ∧ (rcStep st (.toggle false true)).1.enabled = false
    ∧ (rcRun (rcStep st (.toggle false true)).1 acts).2 = [] := by
  have hst : (rcStep st (.toggle false true)).1 =
      { enabled := false, timerOn := false, queue := [],
        channel := st.channel } := by
    simp [rcStep, toggleRemoteControl, stopEventBatching, ht]
  refine ⟨by rw [hst], by rw [hst], by rw [hst], ?_⟩
  apply rcRun_keeps_silent _ acts _ ha
  rw [hst]; exact ⟨rfl, rfl⟩

/-- Concrete instance of `disable_drops_queue_and_silences`: disabling with
an event queued drops it, and later ticks and inputs send nothing. -/
theorem disable_drops_queue_and_silences_witness :
    (rcStep ⟨true, true, [⟨"m", 1⟩], some "open"⟩ (.toggle false true)).1.queue
      = []
    ∧ (rcRun (rcStep ⟨true, true, [⟨"m", 1⟩], some "open"⟩
        (.toggle false true)).1
        [.tick 2, .input "x" 3, .tick 4]).2 = [] :=
  ⟨(disable_drops_queue_and_silences ⟨true, true, [⟨"m", 1⟩], some "open"⟩
      (by decide) [.tick 2, .input "x" 3, .tick 4] (by decide)).1,
   (disable_drops_queue_and_silences ⟨true, true, [⟨"m", 1⟩], some "open"⟩
      (by decide) [.tick 2, .input "x" 3, .tick 4] (by decide)).2.2.2⟩

/-! Section: claims about the sharing-code formatter -/

theorem formatSharingCodeData_take9 (d : List Char) :
    formatSharingCodeData d = formatSharingCodeData (d.take 9) := by
  by_cases h9 : d.length ≤ 9
  · rw [List.take_of_length_le h9]
  · unfold formatSharingCodeData
    have hl : (d.take 9).length = 9 := by
      rw [List.length_take]; omega
    have n3 : ¬d.length ≤ 3 := by omega
    have n6 : ¬d.length ≤ 6 := by omega
    have m3 : ¬(d.take 9).length ≤ 3 := by rw [hl]; omega
    have m6 : ¬(d.take 9).length ≤ 6 := by rw [hl]; omega
    rw [if_neg n3, if_neg n6, if_neg m3, if_neg m6]
    have e1 : (d.take 9).take 3 = d.take 3 := by
      rw [List.take_take]; congr 1
    have e2 : ((d.take 9).drop 3).take 3 = (d.drop 3).take 3 := by
      rw [List.drop_take, List.take_take]; congr 1
    have e3 : ((d.take 9).drop 6).take 3 = (d.drop 6).take 3 := by
      rw [List.drop_take, List.take_take]; congr 1
    rw [e1, e2, e3]

theorem formatSharingCodeData_filter (d : List Char)
    (hd : ∀ c ∈ d, Char.isDigit c = true) :
    (formatSharingCodeData d).filter Char.isDigit = d.take 9 := by
  have hsub : ∀ x : List Char, x ⊆ d → x.filter Char.isDigit = x :=
    fun x hx => List.filter_eq_self.mpr fun a ha => hd a (hx ha)
  have hdash : Char.isDigit '-' = false := rfl
  unfold formatSharingCodeData
  split_ifs with h3 h6
  · rw [hsub d (fun a ha => ha),
      List.take_of_length_le (le_trans h3 (by norm_num))]
  · rw [List.filter_append]
    simp only [List.filter_cons, hdash, Bool.false_eq_true, if_false]
    rw [hsub _ (List.take_subset 3 d), hsub _ (List.drop_subset 3 d),
      List.take_append_drop,
      List.take_of_length_le (le_trans h6 (by norm_num))]
  · rw [List.filter_append]
    simp only [List.filter_cons, hdash, Bool.false_eq_true, if_false]
    rw [List.filter_append]
    simp only [List.filter_cons, hdash, Bool.false_eq_true, if_false]
    rw [hsub _ (List.take_subset 3 d),
      hsub _ (List.Subset.trans (List.take_subset 3 _) (List.drop_subset 3 d)),
      hsub _ (List.Subset.trans (List.take_subset 3 _) (List.drop_subset 6 d))]
    have e9 : d.take 9 = d.take 3 ++ (d.drop 3).take 6 := by
      rw [← List.take_add]
    have e6 : (d.drop 3).take 6 =
        (d.drop 3).take 3 ++ ((d.drop 3).drop 3).take 3 := by
      rw [← List.take_add]
    rw [e9, e6, List.drop_drop]

/-- The output of `formatSharingCode` is determined by the first nine
digits of the input. -/
theorem formatSharingCode_take9 (s : String) :
    formatSharingCode s =
      formatSharingCode ⟨(s.data.filter Char.isDigit).take 9⟩ := by
  unfold formatSharingCode
  congr 1
  show formatSharingCodeData (s.data.filter Char.isDigit) =
    formatSharingCodeData
      (((s.data.filter Char.isDigit).take 9).filter Char.isDigit)
  have hft : ((s.data.filter Char.isDigit).take 9).filter Char.isDigit =
      (s.data.filter Char.isDigit).take 9 :=
    List.filter_eq_self.mpr fun a ha =>
      List.of_mem_filter (List.take_subset 9 _ ha)
  rw [hft]
  exact formatSharingCodeData_take9 _

/-- The digits surviving in the output of `formatSharingCode` are exactly
the first nine digits of the input. -/
theorem formatSharingCode_filter (s : String) :
    (formatSharingCode s).data.filter Char.isDigit =
      (s.data.filter Char.isDigit).take 9 := by
  show (formatSharingCodeData
    (s.data.filter Char.isDigit)).filter Char.isDigit = _
  exact formatSharingCodeData_filter _ fun a ha => List.of_mem_filter ha

/-- Claim C10: `formatSharingCode` is idempotent, and its output depends
only on the first nine digit characters of the input (digits past the
ninth are discarded). -/
theorem formatSharingCode_idem_nine :
    (∀ s, formatSharingCode (formatSharingCode s) = formatSharingCode s)
    ∧ ∀ s t, (s.data.filter Char.isDigit).take 9 =
        (t.data.filter Char.isDigit).take 9 →
      formatSharingCode s = formatSharingCode t := by
  constructor
  · intro s
    rw [formatSharingCode_take9 (formatSharingCode s),
      formatSharingCode_filter, formatSharingCode_take9 s]
    congr 1
    apply congrArg
    exact List.take_of_length_le (List.length_take_le _ _)
  · intro s t h
    rw [formatSharingCode_take9 s, formatSharingCode_take9 t, h]

/-- Concrete instances of `formatSharingCode_idem_nine`: idempotence on an
eleven-digit input, and agreement of two inputs sharing their first nine
digits. -/
theorem formatSharingCode_idem_nine_witness :
    formatSharingCode (formatSharingCode "12345678901") =
      formatSharingCode "12345678901"
    ∧ formatSharingCode "a123456789b" = formatSharingCode "123-456-789-0" :=
  ⟨formatSharingCode_idem_nine.1 "12345678901",
   formatSharingCode_idem_nine.2 "a123456789b" "123-456-789-0" (by decide)⟩

/-! Section: claims about the SDP transformation -/

theorem stripPat_append (p x : List Char) : stripPat p (p ++ x) = some x := by
  induction p with
  | nil => rfl
  | cons c cs ih => simp [stripPat, ih]

theorem spanDigits_append (ds : List Char) (c : Char) (r : List Char)
    (hds : ∀ a ∈ ds, a.isDigit = true) (hc : c.isDigit = false) :
    spanDigits (ds ++ c :: r) = (ds, c :: r) := by
  induction ds with
  | nil => simp [spanDigits, hc]
  | cons a as ih =>
      have ha : a.isDigit = true := hds a (by simp)
      simp [spanDigits, ha, ih fun b hb => hds b (by simp [hb])]

theorem tryFmtp_pos (ds rest : List Char) (h1 : ds ≠ [])
    (h2 : ∀ a ∈ ds, a.isDigit = true) :
    tryFmtp (fmtpPat ++ (ds ++ ' ' :: rest)) = some (ds, rest) := by
  have hsp : Char.isDigit ' ' = false := rfl
  simp only [tryFmtp, stripPat_append, spanDigits_append ds ' ' rest h2 hsp]


theorem tryRtpmap_pos (ds rest : List Char) (h1 : ds ≠ [])
    (h2 : ∀ a ∈ ds, a.isDigit = true) :
    tryRtpmap (rtpmapPat ++ (ds ++ (h264Pat ++ rest))) = some (ds, rest) := by
  have hsp : Char.isDigit ' ' = false := rfl
  have e2 : spanDigits (ds ++ (h264Pat ++ rest)) = (ds, h264Pat ++ rest) := by
    have hform : ds ++ (h264Pat ++ rest) =
        ds ++ ' ' :: ('H' :: '2' :: '6' :: '4' :: rest) := by
      simp [h264Pat]
    rw [hform, spanDigits_append ds ' ' _ h2 hsp]
    simp [h264Pat]
  simp only [tryRtpmap, stripPat_append, e2]

theorem repFmtpGo_no_match (fuel : Nat) (l : List Char)
    (h : noFmtpAll l = true) : repFmtpGo fuel l = l := by
  induction fuel generalizing l with
  | zero => rfl
  | succ f ih =>
      cases l with
      | nil => rfl
      | cons c cs =>
          simp only [noFmtpAll, Bool.and_eq_true,
            Option.isNone_iff_eq_none] at h
          simp [repFmtpGo, h.1, ih cs h.2]

theorem repRtpmapGo_no_match (fuel : Nat) (l : List Char)
    (h : noRtpmapAll l = true) : repRtpmapGo fuel l = l := by
  induction fuel generalizing l with
  | zero => rfl
  | succ f ih =>
      cases l with
      | nil => rfl
      | cons c cs =>
          simp only [noRtpmapAll, Bool.and_eq_true,
            Option.isNone_iff_eq_none] at h
          simp [repRtpmapGo, h.1, ih cs h.2]

theorem repFmtpGo_head (fuel : Nat) (ds rest : List Char) (h1 : ds ≠ [])
    (h2 : ∀ a ∈ ds, a.isDigit = true) :
    repFmtpGo (fuel + 1) (fmtpPat ++ (ds ++ ' ' :: rest)) =
      fmtpPat ++ ds ++ ' ' :: (bitrateHints ++ repFmtpGo fuel rest) := by
  have ht := tryFmtp_pos ds rest h1 h2
  rw [show fmtpPat ++ (ds ++ ' ' :: rest) =
      'a' :: ('=' :: 'f' :: 'm' :: 't' :: 'p' :: ':' :: (ds ++ ' ' :: rest))
    from rfl] at ht ⊢
  simp only [repFmtpGo, ht]

theorem repRtpmapGo_head (fuel : Nat) (ds rest : List Char) (h1 : ds ≠ [])
    (h2 : ∀ a ∈ ds, a.isDigit = true) :
    repRtpmapGo (fuel + 1) (rtpmapPat ++ (ds ++ (h264Pat ++ rest))) =
      rtpmapPat ++ ds ++ h264Pat ++ crlf ++ fmtpPat ++ ds ++
        ' ' :: (profileFmtp ++ repRtpmapGo fuel rest) := by
  have ht := tryRtpmap_pos ds rest h1 h2
  rw [show rtpmapPat ++ (ds ++ (h264Pat ++ rest)) =
      'a' :: ('=' :: 'r' :: 't' :: 'p' :: 'm' :: 'a' :: 'p' :: ':' ::
        (ds ++ (h264Pat ++ rest))) from rfl] at ht ⊢
  simp only [repRtpmapGo, ht]

theorem repRtpmapGo_cons_none (fuel : Nat) (c : Char) (cs : List Char)
    (h : tryRtpmap (c :: cs) = none) :
    repRtpmapGo (fuel + 1) (c :: cs) = c :: repRtpmapGo fuel cs := by
  simp only [repRtpmapGo, h]

theorem repRtpmapGo_append (p : List Char) (fuel : Nat) (q : List Char)
    (hf : p.length ≤ fuel)
    (h : noRtpmapWithin p.length (p ++ q) = true) :
    repRtpmapGo fuel (p ++ q) = p ++ repRtpmapGo (fuel - p.length) q := by
  induction p generalizing fuel with
  | nil => simp
  | cons c p' ih =>
      cases fuel with
      | zero => simp at hf
      | succ f =>
          simp only [List.cons_append] at h ⊢
          simp only [List.length_cons] at h hf ⊢
          rw [noRtpmapWithin] at h
          rw [Bool.and_eq_true, Option.isNone_iff_eq_none] at h
          rw [repRtpmapGo_cons_none f c (p' ++ q) h.1,
            ih f (by omega) h.2, Nat.succ_sub_succ]

/-- Stage one on a well-formed descriptor: the format-parameter match at
the head is replaced (hints inserted after the payload type), and a
match-free remainder is kept unchanged. -/
theorem repFmtp_head (ds rest : List Char) (h1 : ds ≠ [])
    (h2 : ∀ a ∈ ds, a.isDigit = true) (hrest : noFmtpAll rest = true) :
    repFmtp (fmtpPat ++ (ds ++ ' ' :: rest)) =
      fmtpPat ++ ds ++ ' ' :: (bitrateHints ++ rest) := by
  unfold repFmtp
  have hlen : (fmtpPat ++ (ds ++ ' ' :: rest)).length =
      (6 + (ds ++ ' ' :: rest).length) + 1 := by
    simp [fmtpPat]; omega
  rw [hlen, repFmtpGo_head _ ds rest h1 h2, repFmtpGo_no_match _ rest hrest]

/-- Stage two on a well-formed intermediate descriptor: everything before
the H264 mapping match is kept, the match is replaced (the mapping line is
truncated at `H264` and the pinned format-parameter line is inserted after
it), and a match-free remainder is kept unchanged. -/
theorem repRtpmap_split (p ds rest : List Char) (h1 : ds ≠ [])
    (h2 : ∀ a ∈ ds, a.isDigit = true)
    (hB : noRtpmapWithin p.length
      (p ++ (rtpmapPat ++ (ds ++ (h264Pat ++ rest)))) = true)
    (hC : noRtpmapAll rest = true) :
    repRtpmap (p ++ (rtpmapPat ++ (ds ++ (h264Pat ++ rest)))) =
      p ++ (rtpmapPat ++ ds ++ h264Pat ++ crlf ++ fmtpPat ++ ds ++
        ' ' :: (profileFmtp ++ rest)) := by
  unfold repRtpmap
  rw [repRtpmapGo_append p _ _ (by simp) hB]
  have hsub : (p ++ (rtpmapPat ++ (ds ++ (h264Pat ++ rest)))).length -
      p.length = (8 + (ds ++ (h264Pat ++ rest)).length) + 1 := by
    simp [rtpmapPat]; omega
  rw [hsub, repRtpmapGo_head _ ds rest h1 h2,
    repRtpmapGo_no_match _ rest hC]

set_option maxRecDepth 100000 in
/-- Claim C4 counterexample: for the descriptor with format-parameter line
`a=fmtp:96 apt=1` and H264 mapping line `a=rtpmap:96 H264/90000`, the
transformation glues the mapping line's remainder `/90000` onto the end of
the inserted format-parameter line, so no line of the output carries
exactly the profile string `profile-level-id=42e01f;…;packetization-mode=1`
(and the bitrate hints are inserted before `apt=1`, not appended after
it). -/
theorem optimizeSDP_profile_line_not_exact :
    optimizeSDPForLatency "a=fmtp:96 apt=1\r\na=rtpmap:96 H264/90000\r\n" =
      "a=fmtp:96 x-google-max-bitrate=10000;x-google-min-bitrate=2000;x-google-start-bitrate=5000;apt=1\r\na=rtpmap:96 H264\r\na=fmtp:96 profile-level-id=42e01f;level-asymmetry-allowed=1;packetization-mode=1/90000\r\n"
    ∧ ((splitCRLF (optimizeSDPForLatency
        "a=fmtp:96 apt=1\r\na=rtpmap:96 H264/90000\r\n").data).all
        fun l => !(profileFmtp.isSuffixOf l)) = true := by
  exact ⟨by decide, by decide⟩

/-- Claim C4 (amended): for a descriptor made of one format-parameter line
`a=fmtp:<pt1> <params>` followed by one H264 mapping line
`a=rtpmap:<pt2> H264<tail>` (with no other pattern matches), the
transformation inserts the three `x-google-…-bitrate` hints immediately
after the format-parameter line's payload type — before the original
parameters, not appended at the end of the line — and truncates the
mapping line at `H264`, inserting immediately after it a format-parameter
line that carries the pinned profile string followed by the original
mapping line's remainder `<tail>` (so exactly the profile string only when
nothing followed `H264`). -/
theorem optimizeSDP_transform (pt1 pt2 params tl : List Char)
    (h1 : pt1 ≠ []) (h1d : ∀ a ∈ pt1, a.isDigit = true)
    (h2 : pt2 ≠ []) (h2d : ∀ a ∈ pt2, a.isDigit = true)
    (hA : noFmtpAll (params ++ (crlf ++ (rtpmapPat ++ (pt2 ++
      (h264Pat ++ (tl ++ crlf)))))) = true)
    (hB : noRtpmapWithin
      (fmtpPat ++ (pt1 ++ (' ' ::
        (bitrateHints ++ (params ++ crlf))))).length
      ((fmtpPat ++ (pt1 ++ (' ' :: (bitrateHints ++ (params ++ crlf))))) ++
        (rtpmapPat ++ (pt2 ++ (h264Pat ++ (tl ++ crlf))))) = true)
    (hC : noRtpmapAll (tl ++ crlf) = true) :
    optimizeSDPForLatency
      ⟨fmtpPat ++ (pt1 ++ (' ' :: (params ++ (crlf ++
        (rtpmapPat ++ (pt2 ++ (h264Pat ++ (tl ++ crlf))))))))⟩ =
      ⟨fmtpPat ++ (pt1 ++ (' ' :: (bitrateHints ++ (params ++ (crlf ++
        (rtpmapPat ++ (pt2 ++ (h264Pat ++ (crlf ++ (fmtpPat ++ (pt2 ++
          (' ' :: (profileFmtp ++ (tl ++ crlf))))))))))))))⟩ := by
  show (⟨repRtpmap (repFmtp (fmtpPat ++ (pt1 ++ (' ' :: (params ++ (crlf ++
      (rtpmapPat ++ (pt2 ++ (h264Pat ++ (tl ++ crlf))))))))))⟩ : String) = _
  rw [repFmtp_head pt1 (params ++ (crlf ++ (rtpmapPat ++ (pt2 ++
    (h264Pat ++ (tl ++ crlf)))))) h1 h1d hA]
  have hassoc : fmtpPat ++ pt1 ++ ' ' :: (bitrateHints ++ (params ++
      (crlf ++ (rtpmapPat ++ (pt2 ++ (h264Pat ++ (tl ++ crlf))))))) =
      (fmtpPat ++ (pt1 ++ (' ' :: (bitrateHints ++ (params ++ crlf))))) ++
        (rtpmapPat ++ (pt2 ++ (h264Pat ++ (tl ++ crlf)))) := by
    simp [List.append_assoc]
  rw [hassoc, repRtpmap_split _ pt2 (tl ++ crlf) h2 h2d hB hC]
  congr 1
  simp [List.append_assoc]

/-- Concrete instance of `optimizeSDP_transform`: payload type 96,
parameters `apt=1`, mapping-line remainder `/90000`. -/
theorem optimizeSDP_transform_witness :
    optimizeSDPForLatency
      ⟨fmtpPat ++ (['9', '6'] ++ (' ' :: (['a', 'p', 't', '=', '1'] ++
        (crlf ++ (rtpmapPat ++ (['9', '6'] ++ (h264Pat ++
          (['/', '9', '0', '0', '0', '0'] ++ crlf))))))))⟩ =
      ⟨fmtpPat ++ (['9', '6'] ++ (' ' :: (bitrateHints ++
        (['a', 'p', 't', '=', '1'] ++ (crlf ++ (rtpmapPat ++ (['9', '6'] ++
          (h264Pat ++ (crlf ++ (fmtpPat ++ (['9', '6'] ++
            (' ' :: (profileFmtp ++ (['/', '9', '0', '0', '0', '0'] ++
              crlf))))))))))))))⟩ :=
  optimizeSDP_transform ['9', '6'] ['9', '6'] ['a', 'p', 't', '=', '1']
    ['/', '9', '0', '0', '0', '0'] (by decide) (by decide) (by decide)
    (by decide) (by decide) (by decide) (by decide)

end WebStreaming
